import Mathlib

/-!
# goverview: `core/request.go`

A shallow embedding of the request/response pipeline of `core/request.go`
(client construction, dispatch with redirect interception, response
normalisation, beautified renderings, Burp request decoding) together with
theorems about it.

Conventions of the embedding.

* A Go `string` is a Lean `String`; Go's `len` is `String.utf8ByteSize`.
* A Go `map[string]string` that is only built and handed on is a function
  `String → Option String`.  A Go map that the code ranges over is the list
  of its entries in the order the `range` loop visits them.
* A `float64` is carried as its IEEE-754 bit pattern; the two floating point
  operations the code performs on it (duration to seconds, `%f` formatting)
  are parameters of the definitions that use them.
* `time.Duration` is an `Int` number of nanoseconds, wrapped to 64 bits.
-/

namespace Goverview

/-! ## Data model -/

/-- A Go `float64`, carried as its 64-bit pattern.  The zero value is `+0.0`. -/
structure Float64 where
  bits : Nat := 0
  deriving DecidableEq, Repr

/-- Go's `len` on a string: the number of bytes. -/
def len (s : String) : Nat := s.utf8ByteSize

/-- Modelled from the spec: the declaration of `libs.Response` is not part of the
source file; the fields are the ones `request.go` reads and writes.  An element of
`Headers` is a Go map, given by its entries in `range` order. -/
structure Response where
  StatusCode : Int := 0
  Status : String := ""
  ContentType : String := ""
  Location : String := ""
  Headers : List (List (String × String)) := []
  Body : String := ""
  ResponseTime : Float64 := {}
  Length : Nat := 0
  Beautify : String := ""
  BeautifyHeader : String := ""
  deriving DecidableEq, Repr

/-- Modelled from the spec: the declaration of `libs.Request` is not part of the
source file; the fields are the ones `request.go` reads and writes. -/
structure Request where
  Method : String := ""
  URL : String := ""
  Host : String := ""
  Scheme : String := ""
  Path : String := ""
  Headers : List (List (String × String)) := []
  Body : String := ""
  deriving DecidableEq, Repr

/-- Modelled from the spec: the declaration of `libs.Options` is not part of the
source file; the fields are the ones `request.go` reads. -/
structure Options where
  Timeout : Int := 0
  Retry : Int := 0
  Headers : List String := []
  Debug : Bool := false
  Redirect : Bool := false
  deriving DecidableEq, Repr

/-- The fields of `*http.Response` that `request.go` reads.  `Header` is the
`map[string][]string` given by its entries in `range` order; `Body` is what
`ioutil.ReadAll` returns for the response body. -/
structure HttpResponse where
  Status : String := ""
  StatusCode : Int := 0
  Proto : String := ""
  Header : List (String × List String) := []
  Body : String := ""
  deriving DecidableEq, Repr

/-- The parts of `resty.Response` that `ParseResponse` reads: the raw
`*http.Response`, the bytes of `Body()` and the duration `Time()` in
nanoseconds.  `Status()` and `StatusCode()` forward to the raw response. -/
structure RestyResponse where
  RawResponse : HttpResponse := {}
  body : String := ""
  time : Int := 0
  deriving DecidableEq, Repr

/-- Method `Status()` of `resty.Response`. -/
def RestyResponse.Status (r : RestyResponse) : String := r.RawResponse.Status

/-- Method `StatusCode()` of `resty.Response`. -/
def RestyResponse.StatusCode (r : RestyResponse) : Int := r.RawResponse.StatusCode

/-- Go's `strings.Join(v, "")`. -/
def joinEmpty (v : List String) : String := v.foldl (fun acc s => acc ++ s) ""

/-- Go's `strconv.Itoa` on a non-negative `int`. -/
def Itoa (n : Nat) : String := toString n

/-! ## Beautifier -/

/-- `BeautifyRequest`. -/
def BeautifyRequest (req : Request) : String :=
  let beautifyReq := "" ++ (req.Method ++ " " ++ req.URL ++ " HTTP/1.1\n")
  let beautifyReq := req.Headers.foldl (fun acc header =>
    header.foldl (fun acc kv =>
      if kv.1 ≠ "" ∧ kv.2 ≠ "" then acc ++ (kv.1 ++ ": " ++ kv.2 ++ "\n") else acc) acc)
    beautifyReq
  if req.Body ≠ "" then beautifyReq ++ ("\n" ++ req.Body ++ "\n") else beautifyReq

/-- `BeautifyHeaders`. -/
def BeautifyHeaders (res : Response) : String :=
  let beautifyHeader := "< " ++ res.Status ++ " \n"
  res.Headers.foldl (fun acc header =>
    header.foldl (fun acc kv => acc ++ ("< " ++ kv.1 ++ ": " ++ kv.2 ++ "\n")) acc)
    beautifyHeader

/-- `BeautifyResponse`. -/
def BeautifyResponse (res : Response) : String :=
  let beautifyRes := "" ++ (res.Status ++ " \n")
  let beautifyRes := res.Headers.foldl (fun acc header =>
    header.foldl (fun acc kv => acc ++ (kv.1 ++ ": " ++ kv.2 ++ "\n")) acc)
    beautifyRes
  beautifyRes ++ ("\n" ++ res.Body ++ "\n")

/-! ## Response normaliser -/

/-- The loop state of the header loop of `ParseResponse` and of the redirect
hook: the response under construction, the running length, the header list. -/
structure LoopState where
  res : Response
  resLength : Nat
  resHeaders : List (List (String × String))

/-- `ParseResponse`.  `seconds d` is `float64(d) / float64(time.Second)` and
`fmtF x` is `fmt.Sprintf("%f", x)`. -/
def ParseResponse (seconds : Int → Float64) (fmtF : Float64 → String)
    (resp : RestyResponse) : Response :=
  let res : Response := {}
  let resLength := len resp.body
  let st : LoopState := resp.RawResponse.Header.foldl (fun st kv =>
    let k := kv.1
    let v := kv.2
    let res := if k = "Content-Type" then { st.res with ContentType := joinEmpty v } else st.res
    let res := if k = "Location" then { res with Location := joinEmpty v } else res
    let element := [(k, joinEmpty v)]
    { res := res
      resLength := st.resLength + len (k ++ ": " ++ joinEmpty v ++ "\n")
      resHeaders := st.resHeaders ++ [element] })
    { res := res, resLength := resLength, resHeaders := [] }
  let res := st.res
  let resLength := st.resLength
  let resTime := seconds resp.time
  let resHeaders := st.resHeaders ++
    [[("Total Length", Itoa resLength)], [("Response Time", fmtF resTime)]]
  let res := { res with Headers := resHeaders }
  let res := { res with StatusCode := resp.StatusCode }
  let res := { res with Status := resp.Status ++ " " ++ resp.RawResponse.Proto }
  let res := { res with Body := resp.body }
  let res := { res with ResponseTime := resTime }
  let res := { res with Length := resLength }
  let res := { res with Beautify := BeautifyResponse res }
  let res := { res with BeautifyHeader := BeautifyHeaders res }
  res

/-! ## Request dispatcher -/

/-- The redirect policy that `JustSend` installs when `options.Redirect` is
false: the body of the closure, as a function of the captured variable `res`,
of `req.Response` and of `resTime = time.Since(timeStart).Seconds()`.  The
closure always returns the error "auto redirect is disabled". -/
def redirectPolicy (fmtF : Float64 → String) (res : Response) (resp : HttpResponse)
    (resTime : Float64) : Response :=
  let res := { res with StatusCode := resp.StatusCode }
  let res := { res with Status := resp.Status }
  let bodyString := resp.Body
  let resLength := len bodyString
  let st : LoopState := resp.Header.foldl (fun st kv =>
    let k := kv.1
    let v := kv.2
    let res := if k = "Content-Type" then { st.res with ContentType := joinEmpty v } else st.res
    let res := if k = "Location" then { res with Location := joinEmpty v } else res
    let element := [(k, joinEmpty v)]
    { res := res
      resLength := st.resLength + len (k ++ ": " ++ joinEmpty v ++ "\n")
      resHeaders := st.resHeaders ++ [element] })
    { res := res, resLength := resLength, resHeaders := [] }
  let res := st.res
  let resLength := st.resLength
  let resHeaders := st.resHeaders ++
    [[("Total Length", Itoa resLength)], [("Response Time", fmtF resTime)]]
  let res := { res with Headers := resHeaders }
  let res := { res with StatusCode := resp.StatusCode }
  let res := { res with Status := resp.Status ++ " " ++ resp.Proto }
  let res := { res with Body := bodyString }
  let res := { res with ResponseTime := resTime }
  let res := { res with Length := resLength }
  let res := { res with Beautify := BeautifyResponse res }
  let res := { res with BeautifyHeader := BeautifyHeaders res }
  res

/-- What the client's `Get` did, as far as `JustSend` can observe it: the
response the redirect policy was called with (and the elapsed seconds measured
there), if the policy was called; the returned `*resty.Response` (`none` for
`nil`); the returned error (`none` for `nil`). -/
structure GetOutcome where
  intercepted : Option (HttpResponse × Float64) := none
  resp : Option RestyResponse := none
  err : Option String := none
  deriving DecidableEq, Repr

/-- The value of the named result `res` of `JustSend` after the `Get`: filled by
the redirect policy if it is installed and was called, the zero value otherwise. -/
def captured (fmtF : Float64 → String) (options : Options) (out : GetOutcome) : Response :=
  if options.Redirect = false then
    match out.intercepted with
    | some (r, t) => redirectPolicy fmtF {} r t
    | none => {}
  else {}

/-- `JustSend`: the result pair `(res, err)`. -/
def JustSend (seconds : Int → Float64) (fmtF : Float64 → String) (options : Options)
    (out : GetOutcome) : Response × Option String :=
  let res := captured fmtF options out
  let resp := out.resp
  let err := out.err
  if res.StatusCode ≠ 0 then (res, none)
  else
    match err, resp with
    | none, some r => (ParseResponse seconds fmtF r, none)
    | _, _ => ({}, err)

/-! ## Client builder -/

/-- A Go `map[string]string` that is only written by key and handed on. -/
abbrev GoMap := String → Option String

/-- The assignment `m[k] = v`. -/
def GoMap.set (m : GoMap) (k v : String) : GoMap :=
  fun x => if x = k then some v else m x

/-- Go's `strings.Contains(s, sep)` for a one-character separator. -/
def Contains (s : String) (sep : Char) : Bool := s.data.contains sep

/-- Go's `strings.Split(s, sep)` for a one-character separator. -/
def Split (s : String) (sep : Char) : List String := (s.data.splitOn sep).map String.mk

/-- A `time.Duration` computed in `int64`: the value wrapped to 64 bits. -/
def wrapInt64 (x : Int) : Int := (x + 2 ^ 63) % 2 ^ 64 - 2 ^ 63

/-- The constant `time.Second`, in nanoseconds. -/
def Second : Int := 1000000000

/-- The fields of `http.Transport` that `BuildClient` sets; durations in
nanoseconds. -/
structure Transport where
  MaxIdleConns : Int := 0
  MaxConnsPerHost : Int := 0
  IdleConnTimeout : Int := 0
  ExpectContinueTimeout : Int := 0
  ResponseHeaderTimeout : Int := 0
  TLSHandshakeTimeout : Int := 0
  DisableCompression : Bool := false
  InsecureSkipVerify : Bool := false
  deriving DecidableEq, Repr

/-- The settings of a `resty.Client` that `BuildClient` touches.  Each field
holds the argument of the last call of the setter of that name (`Headers` the
map passed to `SetHeaders`, `LoggerDiscard` whether the logger passed to
`SetLogger` writes to `ioutil.Discard`); durations in nanoseconds. -/
structure Client where
  LoggerDiscard : Bool
  Transport : Transport
  Headers : GoMap
  CloseConnection : Bool
  RetryCount : Int
  Timeout : Int
  RetryWaitTime : Int
  RetryMaxWaitTime : Int

/-- The map literal that `BuildClient` starts from. -/
def defaultHeaders : GoMap := fun k =>
  if k = "UserAgent" then
    some "Mozilla/5.0 (Macintosh; Intel Mac OS X 10_15_3) AppleWebKit/537.36 (KHTML, like Gecko) Chrome/80.0.3987.132 Safari/537.36"
  else if k = "Accept" then some "*/*"
  else if k = "AcceptLang" then some "en-US,en;q=0.8"
  else none

/-- The client returned by `resty.New()`, as far as the fields of `Client` go:
no retries, 100 ms retry wait, 2 s maximum retry wait, no timeout, no headers. -/
def restyNew : Client :=
  { LoggerDiscard := false
    Transport := {}
    Headers := fun _ => none
    CloseConnection := false
    RetryCount := 0
    Timeout := 0
    RetryWaitTime := 100000000
    RetryMaxWaitTime := 2000000000 }

/-- `BuildClient`.  `new` is the client returned by `resty.New()`. -/
def BuildClient (new : Client) (options : Options) : Client :=
  let headers : GoMap := defaultHeaders
  let timeout := options.Timeout
  let headers :=
    if options.Headers.length > 0 then
      options.Headers.foldl (fun headers head =>
        if Contains head ':' then
          let data := Split head ':'
          if data.length < 2 then headers
          else headers.set (data.headD "") (joinEmpty (data.drop 1))
        else headers) headers
    else headers
  let client := new
  let client := { client with LoggerDiscard := !options.Debug }
  let client := { client with Transport :=
    { MaxIdleConns := 100
      MaxConnsPerHost := 1000
      IdleConnTimeout := wrapInt64 (timeout * Second)
      ExpectContinueTimeout := wrapInt64 (timeout * Second)
      ResponseHeaderTimeout := wrapInt64 (timeout * Second)
      TLSHandshakeTimeout := wrapInt64 (timeout * Second)
      DisableCompression := true
      InsecureSkipVerify := true } }
  let client := { client with Headers := headers }
  let client := { client with CloseConnection := true }
  let client := if options.Retry > 0 then { client with RetryCount := options.Retry } else client
  let client := { client with Timeout := wrapInt64 (timeout * Second) }
  let client := { client with RetryWaitTime := wrapInt64 (Int.tdiv timeout 2 * Second) }
  let client := { client with RetryMaxWaitTime := wrapInt64 (timeout * Second) }
  client

/-! ## Burp request decoder -/

/-- The value of a character of the standard base64 alphabet. -/
def b64Value (c : Char) : Option Nat :=
  let n := c.toNat
  if 65 ≤ n ∧ n ≤ 90 then some (n - 65)
  else if 97 ≤ n ∧ n ≤ 122 then some (n - 97 + 26)
  else if 48 ≤ n ∧ n ≤ 57 then some (n - 48 + 52)
  else if n = 43 then some 62
  else if n = 47 then some 63
  else none

/-- The quanta of a base64 text from which `\r` and `\n` have been removed:
groups of four alphabet characters, the last group possibly padded with `=`;
anything else is an error. -/
def decodeQuanta : List Char → Option (List Nat)
  | [] => some []
  | [a, b, '=', '='] =>
    match b64Value a, b64Value b with
    | some va, some vb => some [(va * 4 + vb / 16) % 256]
    | _, _ => none
  | [a, b, c, '='] =>
    match b64Value a, b64Value b, b64Value c with
    | some va, some vb, some vc =>
      some [(va * 4 + vb / 16) % 256, (vb % 16 * 16 + vc / 4) % 256]
    | _, _, _ => none
  | a :: b :: c :: d :: rest =>
    match b64Value a, b64Value b, b64Value c, b64Value d, decodeQuanta rest with
    | some va, some vb, some vc, some vd, some bytes =>
      some ((va * 4 + vb / 16) % 256 :: (vb % 16 * 16 + vc / 4) % 256 ::
        (vc % 4 * 64 + vd) % 256 :: bytes)
    | _, _, _, _, _ => none
  | _ => none

/-- Go's `base64.StdEncoding.DecodeString` (standard alphabet, padding required,
`\r` and `\n` ignored): the decoded bytes, or `none` for an error. -/
def DecodeString (s : String) : Option (List Nat) :=
  decodeQuanta (s.data.filter fun c => c ≠ '\r' ∧ c ≠ '\n')

/-- The fields of Go's `url.URL`; `User` holds the rendered user information
(`none` for a nil pointer). -/
structure URL where
  Scheme : String := ""
  Opaque : String := ""
  User : Option String := none
  Host : String := ""
  Path : String := ""
  RawPath : String := ""
  OmitHost : Bool := false
  ForceQuery : Bool := false
  RawQuery : String := ""
  Fragment : String := ""
  RawFragment : String := ""
  deriving DecidableEq, Repr

/-- The fields of `*http.Request` that `ParseBurpRequest` reads; `Referer` is
the result of the method `Referer()`. -/
structure HttpRequest where
  Method : String := ""
  URL : URL := {}
  Host : String := ""
  Referer : String := ""
  RequestURI : String := ""
  deriving DecidableEq, Repr

/-- The functions of Go's `net/http` and `net/url` that `ParseBurpRequest`
relies on and that are taken as given: `http.ReadRequest` on the decoded bytes,
`url.Parse` (`none` for an error), and the escaping functions used by
`(*URL).String`. -/
structure NetLib where
  readRequest : List Nat → Option HttpRequest
  urlParse : String → Option URL
  escapeHost : String → String
  escapedPath : URL → String
  escapedFragment : URL → String

/-- Go's `(*URL).String`. -/
def URL.String (lib : NetLib) (u : URL) : String :=
  let buf := ""
  let buf := if u.Scheme ≠ "" then buf ++ u.Scheme ++ ":" else buf
  let buf :=
    if u.Opaque ≠ "" then buf ++ u.Opaque
    else
      let buf :=
        if u.Scheme ≠ "" ∨ u.Host ≠ "" ∨ u.User.isSome then
          if u.OmitHost ∧ u.Host = "" ∧ u.User.isNone then buf
          else
            let buf := if u.Host ≠ "" ∨ u.Path ≠ "" ∨ u.User.isSome then buf ++ "//" else buf
            let buf := match u.User with
              | some ui => buf ++ ui ++ "@"
              | none => buf
            if u.Host ≠ "" then buf ++ lib.escapeHost u.Host else buf
        else buf
      let path := lib.escapedPath u
      let buf :=
        if path ≠ "" ∧ path.data.head? ≠ some '/' ∧ u.Host ≠ "" then buf ++ "/" else buf
      let buf :=
        if buf = "" then
          if (path.data.takeWhile fun c => c ≠ '/').contains ':' then buf ++ "./" else buf
        else buf
      buf ++ path
  let buf := if u.ForceQuery ∨ u.RawQuery ≠ "" then buf ++ "?" ++ u.RawQuery else buf
  let buf := if u.Fragment ≠ "" then buf ++ "#" ++ lib.escapedFragment u else buf
  buf

/-- `ParseBurpRequest`. -/
def ParseBurpRequest (lib : NetLib) (raw : String) : String :=
  match DecodeString raw with
  | none => ""
  | some rawDecoded =>
    let realReq : Request := {}
    match lib.readRequest rawDecoded with
    | none => ""
    | some parsedReq =>
      let realReq := { realReq with Method := parsedReq.Method }
      let url := parsedReq.URL
      let (realReq, url) :=
        if url.Host = "" then
          ({ realReq with Host := parsedReq.Host }, { url with Host := parsedReq.Host })
        else (realReq, url)
      let (realReq, url) :=
        if url.Scheme = "" then
          if parsedReq.Referer = "" then
            ({ realReq with Scheme := "https" }, { url with Scheme := "https" })
          else
            match lib.urlParse parsedReq.Referer with
            | some u => ({ realReq with Scheme := u.Scheme }, { url with Scheme := u.Scheme })
            | none => (realReq, url)
        else (realReq, url)
      let realReq := { realReq with URL := URL.String lib url }
      let realReq := { realReq with Path := parsedReq.RequestURI }
      realReq.URL

/-! ## Vocabulary of the statements -/

/-- One iteration of the header loop of `ParseResponse` and of the redirect
policy, as a function on the loop state. -/
def loopBody (st : LoopState) (kv : String × List String) : LoopState :=
  { res :=
      if kv.1 = "Location" then
        { (if kv.1 = "Content-Type" then { st.res with ContentType := joinEmpty kv.2 }
            else st.res) with Location := joinEmpty kv.2 }
      else if kv.1 = "Content-Type" then { st.res with ContentType := joinEmpty kv.2 }
      else st.res
    resLength := st.resLength + len (kv.1 ++ ": " ++ joinEmpty kv.2 ++ "\n")
    resHeaders := st.resHeaders ++ [[(kv.1, joinEmpty kv.2)]] }

/-- The lines of a text: the pieces between newlines, without the empty piece
after a final newline. -/
def textLines (s : String) : List String :=
  let parts := s.data.splitOn '\n'
  (if parts.getLast? = some [] then parts.dropLast else parts).map String.mk

/-- The status and header lines of a response whose headers are the single-key
maps `hs`, without line ends. -/
def headLines (status : String) (hs : List (String × String)) : List String :=
  (status ++ " ") :: hs.map fun kv => kv.1 ++ ": " ++ kv.2

/-- The text of a header string before its first colon. -/
def beforeColon (head : String) : String := ⟨head.data.takeWhile fun c => c ≠ ':'⟩

/-- The text of a header string after its first colon. -/
def afterColon (head : String) : String := ⟨(head.data.dropWhile fun c => c ≠ ':').drop 1⟩

/-- White space in the sense of Go's `unicode.IsSpace`. -/
def isSpace (c : Char) : Bool :=
  let n := c.toNat
  (9 ≤ n ∧ n ≤ 13) ∨ n = 32 ∨ n = 0x85 ∨ n = 0xA0 ∨ n = 0x1680 ∨ (0x2000 ≤ n ∧ n ≤ 0x200A) ∨
    n = 0x2028 ∨ n = 0x2029 ∨ n = 0x202F ∨ n = 0x205F ∨ n = 0x3000

/-- Go's `strings.TrimSpace`. -/
def trimSpace (s : String) : String :=
  ⟨((s.data.dropWhile isSpace).reverse.dropWhile isSpace).reverse⟩

/-- The header map as the specification words it: the defaults updated, in
list order, by one entry per user header string that contains a colon, the key
being the trimmed text before the first colon and the value everything after
that colon. -/
def specHeaders (defaults : GoMap) (user : List String) : GoMap :=
  user.foldl (fun m head =>
    if ':' ∈ head.data then m.set (trimSpace (beforeColon head)) (afterColon head) else m)
    defaults

/-- The header map with untrimmed keys: the defaults updated, in list order, by
one entry per user header string that contains a colon, the key being the text
before the first colon and the value everything after that colon. -/
def mergedHeaders (defaults : GoMap) (user : List String) : GoMap :=
  user.foldl (fun m head =>
    if ':' ∈ head.data then m.set (beforeColon head) (afterColon head) else m)
    defaults

/-- A parsed request target that carries neither scheme nor host (origin
form): only path and query are filled. -/
def originForm (u : URL) : Prop :=
  u.Scheme = "" ∧ u.Opaque = "" ∧ u.User = none ∧ u.Host = "" ∧ u.OmitHost = false ∧
    u.Fragment = ""

instance (u : URL) : Decidable (originForm u) := by
  unfold originForm; infer_instance

/-- The scheme `ParseBurpRequest` gives to a request without one: `https`
without a Referer, the scheme of the parsed Referer otherwise, nothing when the
Referer does not parse. -/
def inheritedScheme (lib : NetLib) (referer : String) : String :=
  if referer = "" then "https"
  else match lib.urlParse referer with
    | some u => u.Scheme
    | none => ""

/-- The query part as `(*URL).String` writes it. -/
def queryPart (u : URL) : String :=
  if u.ForceQuery ∨ u.RawQuery ≠ "" then "?" ++ u.RawQuery else ""

/-! ## Sample data -/

/-- The bytes of an ASCII text. -/
def asciiBytes (s : String) : List Nat := s.data.map Char.toNat

/-- Three raw requests and what `http.ReadRequest` returns for them; every
other input is treated as unparsable. -/
def sampleReadRequest (b : List Nat) : Option HttpRequest :=
  if b = asciiBytes "GET /x HTTP/1.1\r\nHost: example.com\r\n\r\n" then
    some { Method := "GET", URL := { Path := "/x" }, Host := "example.com", RequestURI := "/x" }
  else if b = asciiBytes "GET /x HTTP/1.1\r\nHost: example.com\r\nReferer: /home\r\n\r\n" then
    some { Method := "GET", URL := { Path := "/x" }, Host := "example.com",
           Referer := "/home", RequestURI := "/x" }
  else if b = asciiBytes
      "GET /x?q=1 HTTP/1.1\r\nHost: example.com\r\nReferer: http://example.com/a\r\n\r\n" then
    some { Method := "GET", URL := { Path := "/x", RawQuery := "q=1" }, Host := "example.com",
           Referer := "http://example.com/a", RequestURI := "/x?q=1" }
  else none

/-- What `url.Parse` returns for the two Referer values of the samples. -/
def sampleUrlParse (s : String) : Option URL :=
  if s = "/home" then some { Path := "/home" }
  else if s = "http://example.com/a" then
    some { Scheme := "http", Host := "example.com", Path := "/a" }
  else none

/-- The library functions on the samples, whose hosts and paths need no
escaping. -/
def sampleLib : NetLib :=
  { readRequest := sampleReadRequest
    urlParse := sampleUrlParse
    escapeHost := fun h => h
    escapedPath := fun u => u.Path
    escapedFragment := fun u => u.Fragment }

/-- A stand-in for `float64(d) / float64(time.Second)` in examples: the
duration itself as bit pattern. -/
def sampleSeconds (d : Int) : Float64 := { bits := d.toNat }

/-- A stand-in for `fmt.Sprintf("%f", x)` in examples. -/
def sampleFmt (x : Float64) : String := toString x.bits ++ ".000000"

/-- A 200 response with body `hello` and the single header
`Content-Type: text/plain`. -/
def helloResponse : RestyResponse :=
  { RawResponse :=
      { Status := "200 OK", StatusCode := 200, Proto := "HTTP/1.1",
        Header := [("Content-Type", ["text/plain"])] }
    body := "hello"
    time := 1500000 }

/-- A 302 response with the header `Location: https://example.com/y`. -/
def foundResponse : HttpResponse :=
  { Status := "302 Found", StatusCode := 302, Proto := "HTTP/1.1",
    Header := [("Location", ["https://example.com/y"])] }

/-! ## Lemmas on strings and loops -/

theorem join_nil : String.join [] = "" := rfl

theorem join_cons (a : String) (l : List String) :
    String.join (a :: l) = a ++ String.join l := by
  apply String.ext
  simp [String.data_join]

/-- The nested loops of the beautifiers over single-key maps append one piece
per header, in list order. -/
theorem foldl_single (f : String × String → String) (hs : List (String × String))
    (acc : String) :
    (hs.map fun kv => [kv]).foldl
        (fun acc header => header.foldl (fun acc kv => acc ++ f kv) acc) acc =
      acc ++ String.join (hs.map f) := by
  induction hs generalizing acc with
  | nil => simp [join_nil]
  | cons kv hs ih =>
    simp only [List.map_cons, List.foldl_cons, List.foldl_nil, ih, join_cons, String.append_assoc]

theorem splitOn_terminated (ls : List (List Char)) (h : ∀ l ∈ ls, '\n' ∉ l) :
    (ls.map fun l => l ++ ['\n']).flatten.splitOn '\n' = ls ++ [[]] := by
  induction ls with
  | nil => rfl
  | cons l ls ih =>
    have hl : ∀ x ∈ l, ¬ ((x == '\n') = true) := by
      intro x hx hxe
      have : x = '\n' := by simpa using hxe
      exact h l (List.mem_cons_self _ _) (this ▸ hx)
    have ih2 := ih (fun m hm => h m (List.mem_cons_of_mem _ hm))
    simp only [List.map_cons, List.flatten_cons, List.append_assoc, List.singleton_append,
      List.cons_append]
    unfold List.splitOn at ih2 ⊢
    rw [List.splitOnP_first _ _ hl '\n' (by simp), List.nil_append, ih2]

/-- A text made of newline-terminated pieces without inner newlines has exactly
those pieces as its lines. -/
theorem textLines_join (ls : List String) (h : ∀ l ∈ ls, '\n' ∉ l.data) :
    textLines (String.join (ls.map fun l => l ++ "\n")) = ls := by
  have hd : (String.join (ls.map fun l => l ++ "\n")).data =
      ((ls.map String.data).map fun l => l ++ ['\n']).flatten := by
    simp [String.data_join, List.map_map, Function.comp_def]
  unfold textLines
  simp only [hd]
  rw [splitOn_terminated _ (by simpa using h)]
  simp [List.map_map, Function.comp_def]

theorem loop_resLength (hs : List (String × List String)) (st : LoopState) :
    (hs.foldl loopBody st).resLength =
      st.resLength + (hs.map fun kv => len (kv.1 ++ ": " ++ joinEmpty kv.2 ++ "\n")).sum := by
  induction hs generalizing st with
  | nil => simp
  | cons kv hs ih => simp [List.foldl_cons, ih, loopBody, Nat.add_assoc]

theorem loop_resHeaders (hs : List (String × List String)) (st : LoopState) :
    (hs.foldl loopBody st).resHeaders =
      st.resHeaders ++ hs.map fun kv => [(kv.1, joinEmpty kv.2)] := by
  induction hs generalizing st with
  | nil => simp
  | cons kv hs ih => simp [List.foldl_cons, ih, loopBody]

/-- `ParseResponse` in terms of `loopBody`. -/
theorem ParseResponse_eq (seconds : Int → Float64) (fmtF : Float64 → String)
    (resp : RestyResponse) :
    ParseResponse seconds fmtF resp =
      let st := resp.RawResponse.Header.foldl loopBody
        { res := {}, resLength := len resp.body, resHeaders := [] }
      let r : Response :=
        { st.res with
          Headers := st.resHeaders ++
            [[("Total Length", Itoa st.resLength)], [("Response Time", fmtF (seconds resp.time))]]
          StatusCode := resp.StatusCode
          Status := resp.Status ++ " " ++ resp.RawResponse.Proto
          Body := resp.body
          ResponseTime := seconds resp.time
          Length := st.resLength }
      { r with Beautify := BeautifyResponse r,
               BeautifyHeader := BeautifyHeaders { r with Beautify := BeautifyResponse r } } := by
  rfl

theorem BeautifyResponse_single (res : Response) (hs : List (String × String))
    (h : res.Headers = hs.map fun kv => [kv]) :
    BeautifyResponse res =
      res.Status ++ " \n" ++ String.join (hs.map fun kv => kv.1 ++ ": " ++ kv.2 ++ "\n") ++
        "\n" ++ res.Body ++ "\n" := by
  unfold BeautifyResponse
  simp only [h, foldl_single (fun kv => kv.1 ++ ": " ++ kv.2 ++ "\n")]
  apply String.ext
  simp [String.data_append, List.append_assoc]

theorem BeautifyHeaders_single (res : Response) (hs : List (String × String))
    (h : res.Headers = hs.map fun kv => [kv]) :
    BeautifyHeaders res =
      String.join ((headLines res.Status hs).map fun l => "< " ++ l ++ "\n") := by
  unfold BeautifyHeaders
  simp only [h, foldl_single (fun kv => "< " ++ kv.1 ++ ": " ++ kv.2 ++ "\n")]
  apply String.ext
  simp [String.data_append, String.data_join, headLines, List.map_map, Function.comp_def,
    List.append_assoc]

/-- The redirect policy in terms of `loopBody`. -/
theorem redirectPolicy_eq (fmtF : Float64 → String) (res : Response) (resp : HttpResponse)
    (resTime : Float64) :
    redirectPolicy fmtF res resp resTime =
      let st := resp.Header.foldl loopBody
        { res := { res with StatusCode := resp.StatusCode, Status := resp.Status },
          resLength := len resp.Body, resHeaders := [] }
      let r : Response :=
        { st.res with
          Headers := st.resHeaders ++
            [[("Total Length", Itoa st.resLength)], [("Response Time", fmtF resTime)]]
          StatusCode := resp.StatusCode
          Status := resp.Status ++ " " ++ resp.Proto
          Body := resp.Body
          ResponseTime := resTime
          Length := st.resLength }
      { r with Beautify := BeautifyResponse r,
               BeautifyHeader := BeautifyHeaders { r with Beautify := BeautifyResponse r } } := by
  rfl

/-- The header loop does not read the status fields: setting them before the
loop or after it gives the same state. -/
theorem loop_status (hs : List (String × List String)) (st : LoopState) (c : Int) (s : String) :
    hs.foldl loopBody { st with res := { st.res with StatusCode := c, Status := s } } =
      { hs.foldl loopBody st with
        res := { (hs.foldl loopBody st).res with StatusCode := c, Status := s } } := by
  induction hs generalizing st with
  | nil => rfl
  | cons kv hs ih =>
    simp only [List.foldl_cons]
    rw [← ih]
    congr 1
    simp only [loopBody]
    split_ifs <;> rfl

/-! ## Lemmas on the client builder -/

theorem splitOn_colon (l : List Char) (hmem : ':' ∈ l) (hc : l.count ':' ≤ 1) :
    l.splitOn ':' =
      [l.takeWhile (fun c => c ≠ ':'), (l.dropWhile fun c => c ≠ ':').drop 1] := by
  induction l with
  | nil => simp at hmem
  | cons c l ih =>
    unfold List.splitOn at ih ⊢
    by_cases hcc : c = ':'
    · subst hcc
      have hnot : ':' ∉ l := by
        rw [← List.count_eq_zero]
        simp [List.count_cons] at hc
        omega
      have hsingle : l.splitOnP (fun x => x == ':') = [l] :=
        List.splitOnP_eq_single _ _ (fun x hx hxe => hnot (by
          have : x = ':' := by simpa using hxe
          exact this ▸ hx))
      simp [List.splitOnP_cons, hsingle]
    · have hmem2 : ':' ∈ l := by
        rcases List.mem_cons.1 hmem with h | h
        · exact absurd h.symm hcc
        · exact h
      have hc2 : l.count ':' ≤ 1 := by
        have := List.count_le_count_cons (a := ':') (b := c) l
        omega
      simp [List.splitOnP_cons, hcc, ih hmem2 hc2, List.takeWhile_cons, List.dropWhile_cons]

/-- A header string with exactly one colon splits into the text before and the
text after the colon. -/
theorem Split_colon (head : String) (hmem : ':' ∈ head.data) (hc : head.data.count ':' ≤ 1) :
    Split head ':' = [beforeColon head, afterColon head] := by
  simp [Split, splitOn_colon head.data hmem hc, beforeColon, afterColon]

theorem joinEmpty_single (s : String) : joinEmpty [s] = s := by
  apply String.ext
  simp [joinEmpty]

/-- The header map of the built client is the result of the header loop. -/
theorem BuildClient_Headers_eq (new : Client) (options : Options) :
    (BuildClient new options).Headers =
      options.Headers.foldl (fun headers head =>
        if Contains head ':' then
          if (Split head ':').length < 2 then headers
          else headers.set ((Split head ':').headD "") (joinEmpty ((Split head ':').drop 1))
        else headers) defaultHeaders := by
  unfold BuildClient
  by_cases hr : options.Retry > 0 <;> by_cases hl : options.Headers.length > 0
  · simp [hr, hl]
  · have : options.Headers = [] := by
      cases hh : options.Headers with
      | nil => rfl
      | cons a l => simp [hh] at hl
    simp [hr, this]
  · simp [hr, hl]
  · have : options.Headers = [] := by
      cases hh : options.Headers with
      | nil => rfl
      | cons a l => simp [hh] at hl
    simp [hr, this]

theorem wrapInt64_of_range (x : Int) (h0 : -2 ^ 63 ≤ x) (h1 : x < 2 ^ 63) : wrapInt64 x = x := by
  unfold wrapInt64
  rw [Int.emod_eq_of_lt (by omega) (by omega)]
  omega

/-- The retry settings of the built client, as computed. -/
theorem BuildClient_retry_eq (new : Client) (options : Options) :
    (BuildClient new options).RetryWaitTime = wrapInt64 (Int.tdiv options.Timeout 2 * Second) ∧
      (BuildClient new options).RetryMaxWaitTime = wrapInt64 (options.Timeout * Second) ∧
      (BuildClient new options).RetryCount =
        if options.Retry > 0 then options.Retry else new.RetryCount := by
  unfold BuildClient
  by_cases hr : options.Retry > 0 <;> simp [hr]

/-! ## Lemmas on the Burp request decoder -/

/-- For a request in origin form that decodes and parses, `ParseBurpRequest`
renders the parsed URL with the host of the request and the inherited scheme. -/
theorem ParseBurpRequest_String (lib : NetLib) (raw : String) (b : List Nat) (req : HttpRequest)
    (hdec : DecodeString raw = some b) (hreq : lib.readRequest b = some req)
    (horigin : originForm req.URL) :
    ParseBurpRequest lib raw =
      URL.String lib
        { req.URL with Host := req.Host, Scheme := inheritedScheme lib req.Referer } := by
  obtain ⟨hs, -, -, hh, -, -⟩ := horigin
  unfold ParseBurpRequest inheritedScheme
  simp only [hdec, hreq, hh, hs, if_true]
  by_cases hr : req.Referer = ""
  · simp [hr]
  · cases hp : lib.urlParse req.Referer with
    | none =>
      simp only [hr, if_false]
    | some u => simp [hr]

theorem append_ne_empty (s t : String) (h : s ≠ "") : s ++ t ≠ "" := by
  intro he
  apply h
  have := congrArg String.data he
  simp only [String.data_append] at this
  apply String.ext
  exact (List.append_eq_nil.1 this).1

/-- The rendering of a URL with a scheme, without opaque part, user
information and fragment, and with a path that starts with a slash. -/
theorem URL_String_absolute (lib : NetLib) (v : URL)
    (hs : v.Scheme ≠ "") (ho : v.Opaque = "") (hu : v.User = none) (hom : v.OmitHost = false)
    (hf : v.Fragment = "") (hhost : v.Host ≠ "" ∨ v.Path ≠ "")
    (hpath : (lib.escapedPath v).data.head? = some '/') :
    URL.String lib v =
      v.Scheme ++ "://" ++ (if v.Host ≠ "" then lib.escapeHost v.Host else "") ++
        lib.escapedPath v ++ queryPart v := by
  unfold URL.String queryPart
  generalize lib.escapedPath v = path at hpath ⊢
  have hb1 : ∀ t : String, "" ++ v.Scheme ++ ":" ++ t ≠ "" := by
    intro t
    rw [String.append_assoc, String.append_assoc]
    simp only [String.empty_append]
    exact append_ne_empty _ _ hs
  have hb2 : ∀ t u : String, "" ++ v.Scheme ++ ":" ++ t ++ u ≠ "" := by
    intro t u
    rw [String.append_assoc, String.append_assoc, String.append_assoc]
    simp only [String.empty_append]
    exact append_ne_empty _ _ hs
  have hb0 : "" ++ v.Scheme ++ ":" ≠ "" := by
    rw [String.append_assoc]
    simp only [String.empty_append]
    exact append_ne_empty _ _ hs
  simp only [ho, hu, hom, hf, hs, hpath, ne_eq, not_true_eq_false, not_false_eq_true, if_true,
    if_false, true_or, false_and, and_false, Option.isSome_none, Bool.false_eq_true, or_false,
    and_true, false_or]
  by_cases h1 : v.Host = ""
  · have h2 : v.Path ≠ "" := by
      rcases hhost with h | h
      · exact absurd h1 h
      · exact h
    simp only [h1, h2, not_true_eq_false, not_false_eq_true, if_true, if_false, false_or,
      and_false, hb1, hb2, hb0]
    split_ifs <;> simp [String.append_assoc]
  · simp only [h1, not_false_eq_true, if_true, true_or, and_true, not_true_eq_false, and_false,
      if_false, hb1, hb2, hb0]
    split_ifs <;> simp [String.append_assoc]

/-! ## Response normaliser: the computed length -/

/-- C1: the `Length` of the Response that `ParseResponse` returns is the byte
length of the body plus, for every raw header entry `k`, the byte length of the
line `k: v\n` with `v` the concatenation of the values of `k`; the entries
`Total Length` and `Response Time`, appended after the raw headers, are not
counted.  For body `hello` and the header `Content-Type: text/plain` the length
is `5 + len "Content-Type: text/plain\n" = 30`. -/
theorem ParseResponse_Length (seconds : Int → Float64) (fmtF : Float64 → String) :
    (∀ resp : RestyResponse,
      (ParseResponse seconds fmtF resp).Length =
          len resp.body +
            (resp.RawResponse.Header.map fun kv =>
              len (kv.1 ++ ": " ++ joinEmpty kv.2 ++ "\n")).sum ∧
        (ParseResponse seconds fmtF resp).Headers =
          (resp.RawResponse.Header.map fun kv => [(kv.1, joinEmpty kv.2)]) ++
            [[("Total Length", Itoa (ParseResponse seconds fmtF resp).Length)],
             [("Response Time", fmtF (seconds resp.time))]]) ∧
      (ParseResponse seconds fmtF helloResponse).Length = 5 + len "Content-Type: text/plain\n" ∧
      (ParseResponse seconds fmtF helloResponse).Length = 30 ∧
      (ParseResponse seconds fmtF helloResponse).Body = "hello" ∧
      (ParseResponse seconds fmtF helloResponse).ContentType = "text/plain" := by
  refine ⟨fun resp => ⟨?_, ?_⟩, ?_, ?_, ?_, ?_⟩
  · rw [ParseResponse_eq]
    simp [loop_resLength]
  · rw [ParseResponse_eq]
    simp [loop_resLength, loop_resHeaders]
  · rw [ParseResponse_eq]
    simp only [loop_resLength]
    decide
  · rw [ParseResponse_eq]
    simp only [loop_resLength]
    decide
  · rfl
  · rfl

/-! ## Beautifier -/

/-- C3: for a Response whose headers are the single-key maps `hs`,
`BeautifyResponse` returns the status followed by a blank and a newline, then
one line `Key: Value` per header in list order, then an empty line, the body
and a final newline; the empty line and the body section are there for every
Response, also one with an empty body. -/
theorem BeautifyResponse_format (res : Response) (hs : List (String × String))
    (h : res.Headers = hs.map fun kv => [kv]) :
    BeautifyResponse res =
        res.Status ++ " \n" ++ String.join (hs.map fun kv => kv.1 ++ ": " ++ kv.2 ++ "\n") ++
          "\n" ++ res.Body ++ "\n" ∧
      (res.Body = "" →
        BeautifyResponse res =
          res.Status ++ " \n" ++ String.join (hs.map fun kv => kv.1 ++ ": " ++ kv.2 ++ "\n") ++
            "\n\n") := by
  refine ⟨BeautifyResponse_single res hs h, fun hb => ?_⟩
  rw [BeautifyResponse_single res hs h, hb]
  apply String.ext
  simp [String.data_append, List.append_assoc]

/-- C3, at a Response with two headers and an empty body. -/
theorem BeautifyResponse_format_witness :
    BeautifyResponse
        { Status := "200 OK HTTP/1.1", Headers := [[("Server", "x")], [("Total Length", "10")]] } =
      "200 OK HTTP/1.1 \nServer: x\nTotal Length: 10\n\n\n" :=
  (BeautifyResponse_format
    { Status := "200 OK HTTP/1.1", Headers := [[("Server", "x")], [("Total Length", "10")]] }
    [("Server", "x"), ("Total Length", "10")] rfl).1

/-- C4: for a Response whose headers are the `n` single-key maps `hs` and whose
status, keys and values contain no newline, `BeautifyHeaders` returns `n + 1`
lines: the status line of the response rendering (the status and a blank)
behind `< `, then `< Key: Value` per header in list order.  Every line starts
with `< `, the output does not depend on the body, and it is the response
rendering with each line behind `< ` and without the empty line and the body. -/
theorem BeautifyHeaders_lines (res : Response) (hs : List (String × String))
    (h : res.Headers = hs.map fun kv => [kv])
    (hstatus : '\n' ∉ res.Status.data)
    (hkv : ∀ kv ∈ hs, '\n' ∉ kv.1.data ∧ '\n' ∉ kv.2.data) :
    textLines (BeautifyHeaders res) =
        ("< " ++ res.Status ++ " ") :: hs.map (fun kv => "< " ++ kv.1 ++ ": " ++ kv.2) ∧
      (textLines (BeautifyHeaders res)).length = hs.length + 1 ∧
      (∀ l ∈ textLines (BeautifyHeaders res), ∃ t, l = "< " ++ t) ∧
      (∀ body : String, BeautifyHeaders { res with Body := body } = BeautifyHeaders res) ∧
      BeautifyHeaders res =
        String.join ((headLines res.Status hs).map fun l => "< " ++ l ++ "\n") ∧
      BeautifyResponse res =
        String.join ((headLines res.Status hs).map fun l => l ++ "\n") ++
          ("\n" ++ res.Body ++ "\n") := by
  have hlines : textLines (BeautifyHeaders res) =
      ("< " ++ res.Status ++ " ") :: hs.map (fun kv => "< " ++ kv.1 ++ ": " ++ kv.2) := by
    have e : String.join ((headLines res.Status hs).map fun l => "< " ++ l ++ "\n") =
        String.join (((headLines res.Status hs).map fun l => "< " ++ l).map fun l => l ++ "\n") := by
      simp [List.map_map, Function.comp_def]
    rw [BeautifyHeaders_single res hs h, e, textLines_join]
    · simp [headLines, List.map_map, Function.comp_def, String.append_assoc]
    · intro l hl
      simp only [headLines, List.map_cons, List.map_map, List.mem_cons, List.mem_map,
        Function.comp_def] at hl
      rcases hl with rfl | ⟨kv, hmem, rfl⟩
      · simp [String.data_append, hstatus]
      · have := hkv kv hmem
        simp [String.data_append, this.1, this.2]
  refine ⟨hlines, ?_, ?_, fun _ => rfl, BeautifyHeaders_single res hs h, ?_⟩
  · rw [hlines]; simp
  · intro l hl
    rw [hlines] at hl
    simp only [List.mem_cons, List.mem_map] at hl
    rcases hl with rfl | ⟨kv, _, rfl⟩
    · exact ⟨res.Status ++ " ", by simp [String.append_assoc]⟩
    · exact ⟨kv.1 ++ ": " ++ kv.2, by simp [String.append_assoc]⟩
  · rw [BeautifyResponse_single res hs h]
    apply String.ext
    simp [String.data_append, String.data_join, headLines, List.map_map, Function.comp_def,
      List.append_assoc]

/-- C4, at a Response with two headers: three lines, each behind `< `, no body. -/
theorem BeautifyHeaders_lines_witness :
    textLines (BeautifyHeaders
        { Status := "302 Found HTTP/1.1", Body := "moved",
          Headers := [[("Location", "/y")], [("Total Length", "22")]] }) =
      ["< 302 Found HTTP/1.1 ", "< Location: /y", "< Total Length: 22"] :=
  (BeautifyHeaders_lines
    { Status := "302 Found HTTP/1.1", Body := "moved",
      Headers := [[("Location", "/y")], [("Total Length", "22")]] }
    [("Location", "/y"), ("Total Length", "22")] rfl (by decide) (by decide)).1

/-! ## Request dispatcher -/

/-- C7: with `captured` the Response filled by the redirect policy, `JustSend`
returns `(captured, no error)` whenever `captured.StatusCode` is not zero,
whatever the error of the send; otherwise the empty Response with the error
whenever there is an error; otherwise the parsed response without error.  So
it returns an error exactly when the send failed and no redirect was
intercepted, and the Response is then empty. -/
theorem JustSend_outcome (seconds : Int → Float64) (fmtF : Float64 → String)
    (options : Options) (out : GetOutcome) :
    ((captured fmtF options out).StatusCode ≠ 0 →
        JustSend seconds fmtF options out = (captured fmtF options out, none)) ∧
      ((captured fmtF options out).StatusCode = 0 → ∀ e, out.err = some e →
        JustSend seconds fmtF options out = ({}, some e)) ∧
      ((captured fmtF options out).StatusCode = 0 → out.err = none → ∀ r, out.resp = some r →
        JustSend seconds fmtF options out = (ParseResponse seconds fmtF r, none)) ∧
      ((JustSend seconds fmtF options out).2 ≠ none ↔
        out.err ≠ none ∧ (captured fmtF options out).StatusCode = 0) ∧
      ((JustSend seconds fmtF options out).2 ≠ none →
        (JustSend seconds fmtF options out).1 = {}) := by
  unfold JustSend
  by_cases hc : (captured fmtF options out).StatusCode = 0
  · rcases out with ⟨i, resp, err⟩
    cases err <;> cases resp <;> simp_all
  · simp [hc]

/-- C10: on a fresh result variable, the redirect policy of `JustSend` leaves
exactly the Response that `ParseResponse` returns for a raw response with the
same status, protocol, status code, header entries in the same order, body and
elapsed seconds; all fields agree.  For a 302 response with
`Location: https://example.com/y` both give status code 302, that location and
a non-empty `Beautify`. -/
theorem redirectPolicy_refines :
    (∀ (seconds : Int → Float64) (fmtF : Float64 → String) (resp : HttpResponse) (d : Int)
        (rawBody : String),
      redirectPolicy fmtF {} resp (seconds d) =
        ParseResponse seconds fmtF
          { RawResponse := { resp with Body := rawBody }, body := resp.Body, time := d }) ∧
      ((redirectPolicy sampleFmt {} foundResponse (sampleSeconds 1500000)).StatusCode = 302 ∧
        (redirectPolicy sampleFmt {} foundResponse (sampleSeconds 1500000)).Location =
          "https://example.com/y" ∧
        (redirectPolicy sampleFmt {} foundResponse (sampleSeconds 1500000)).Beautify ≠ "") ∧
      ((ParseResponse sampleSeconds sampleFmt
          { RawResponse := foundResponse, time := 1500000 }).StatusCode = 302 ∧
        (ParseResponse sampleSeconds sampleFmt
          { RawResponse := foundResponse, time := 1500000 }).Location = "https://example.com/y" ∧
        (ParseResponse sampleSeconds sampleFmt
          { RawResponse := foundResponse, time := 1500000 }).Beautify ≠ "") := by
  refine ⟨?_, ⟨by decide, by decide, by decide⟩, ⟨by decide, by decide, by decide⟩⟩
  intro seconds fmtF resp d rawBody
  rw [redirectPolicy_eq, ParseResponse_eq]
  simp only [RestyResponse.Status, RestyResponse.StatusCode]
  have := loop_status resp.Header { res := {}, resLength := len resp.Body, resHeaders := [] }
    resp.StatusCode resp.Status
  simp only [] at this
  rw [this]

/-! ## Client builder -/

/-- C2, as stated, fails: the key is not trimmed (`X-A : b` is stored under
`X-A ` with the blank, so `X-A` has no entry), and the colons after the first
one are not kept (`Referer:http://a` is stored with the value `http//a`). -/
theorem BuildClient_headers_not_spec :
    (BuildClient restyNew { Headers := ["X-A : b"] }).Headers "X-A" ≠
        specHeaders defaultHeaders ["X-A : b"] "X-A" ∧
      (BuildClient restyNew { Headers := ["X-A : b"] }).Headers "X-A" = none ∧
      (BuildClient restyNew { Headers := ["X-A : b"] }).Headers "X-A " = some " b" ∧
      (BuildClient restyNew { Headers := ["Referer:http://a"] }).Headers "Referer" ≠
        specHeaders defaultHeaders ["Referer:http://a"] "Referer" ∧
      (BuildClient restyNew { Headers := ["Referer:http://a"] }).Headers "Referer" =
        some "http//a" := by
  decide

/-- C2, amended: when every user header string has at most one colon, the
header map that `BuildClient` sets is the default map updated, in list order,
by one entry per user header string with a colon, the key being the text before
the colon as it stands (not trimmed) and the value the text after it; a user
header string without colon changes nothing. -/
theorem BuildClient_headers_merged (new : Client) (options : Options)
    (h : ∀ head ∈ options.Headers, head.data.count ':' ≤ 1) :
    (BuildClient new options).Headers = mergedHeaders defaultHeaders options.Headers := by
  rw [BuildClient_Headers_eq]
  unfold mergedHeaders
  apply List.foldl_ext
  intro m head hmem
  by_cases hc : ':' ∈ head.data
  · have hs := Split_colon head hc (h head hmem)
    simp [Contains, hc, hs, joinEmpty_single]
  · simp [Contains, hc]

/-- C2, amended, at the user headers `Accept:text/html`, `broken`, `X-Id: 7`:
the default `Accept` is overridden, `broken` is dropped, `X-Id` is added. -/
theorem BuildClient_headers_merged_witness :
    (BuildClient restyNew { Headers := ["Accept:text/html", "broken", "X-Id: 7"] }).Headers =
        mergedHeaders defaultHeaders ["Accept:text/html", "broken", "X-Id: 7"] ∧
      mergedHeaders defaultHeaders ["Accept:text/html", "broken", "X-Id: 7"] "Accept" =
        some "text/html" ∧
      mergedHeaders defaultHeaders ["Accept:text/html", "broken", "X-Id: 7"] "X-Id" =
        some " 7" ∧
      mergedHeaders defaultHeaders ["Accept:text/html", "broken", "X-Id: 7"] "broken" = none :=
  ⟨BuildClient_headers_merged restyNew
      { Headers := ["Accept:text/html", "broken", "X-Id: 7"] } (by decide),
    by decide, by decide, by decide⟩

/-- C8, on the code: without user headers the map that `BuildClient` sets has
no entry `User-Agent` and no entry `Accept-Language`; the default values sit
under the keys `UserAgent` and `AcceptLang`.  Only `Accept` is as claimed. -/
theorem BuildClient_default_keys :
    (BuildClient restyNew {}).Headers "User-Agent" = none ∧
      (BuildClient restyNew {}).Headers "Accept-Language" = none ∧
      (BuildClient restyNew {}).Headers "Accept" = some "*/*" ∧
      (BuildClient restyNew {}).Headers "UserAgent" =
        some "Mozilla/5.0 (Macintosh; Intel Mac OS X 10_15_3) AppleWebKit/537.36 (KHTML, like Gecko) Chrome/80.0.3987.132 Safari/537.36" ∧
      (BuildClient restyNew {}).Headers "AcceptLang" = some "en-US,en;q=0.8" := by
  decide

/-- C9, as stated, fails: for a timeout of 15 s the retry wait time is 7 s, not
7.5 s, and for 1 s it is 0 s, not 0.5 s; and for a timeout whose nanoseconds
do not fit 64 bits the maximum wait time is not the timeout. -/
theorem BuildClient_retry_not_half :
    2 * (BuildClient restyNew { Timeout := 15 }).RetryWaitTime ≠ 15 * Second ∧
      (BuildClient restyNew { Timeout := 15 }).RetryWaitTime = 7 * Second ∧
      (BuildClient restyNew { Timeout := 1 }).RetryWaitTime = 0 ∧
      (BuildClient restyNew { Timeout := 9223372037 }).RetryMaxWaitTime ≠
        9223372037 * Second := by
  decide

/-- C9, amended: for a timeout of `t ≥ 0` seconds whose nanoseconds fit 64
bits, the retry wait time is `t / 2` seconds rounded down to whole seconds and
the maximum retry wait time is `t` seconds; the retry count is `options.Retry`
when that is positive and is left as `resty.New()` gave it (zero) otherwise. -/
theorem BuildClient_retry_floor (new : Client) (options : Options)
    (h0 : 0 ≤ options.Timeout) (h1 : options.Timeout * Second < 2 ^ 63) :
    (BuildClient new options).RetryWaitTime = options.Timeout / 2 * Second ∧
      (BuildClient new options).RetryMaxWaitTime = options.Timeout * Second ∧
      (BuildClient new options).RetryCount =
        (if options.Retry > 0 then options.Retry else new.RetryCount) ∧
      (options.Retry ≤ 0 → (BuildClient restyNew options).RetryCount = 0) := by
  obtain ⟨hw, hm, hc⟩ := BuildClient_retry_eq new options
  have hc0 := (BuildClient_retry_eq restyNew options).2.2
  have hs : Second = 1000000000 := rfl
  rw [hs] at h1
  refine ⟨?_, ?_, hc, ?_⟩
  · rw [hw, Int.tdiv_eq_ediv h0 (by decide), hs]
    apply wrapInt64_of_range <;> omega
  · rw [hm, hs]
    apply wrapInt64_of_range <;> omega
  · intro hr
    rw [hc0, if_neg (by omega)]
    rfl

/-- C9, amended, at a timeout of 15 s without retries: 7 s, 15 s, no retry. -/
theorem BuildClient_retry_floor_witness :
    (BuildClient restyNew { Timeout := 15 }).RetryWaitTime = 7000000000 ∧
      (BuildClient restyNew { Timeout := 15 }).RetryMaxWaitTime = 15000000000 ∧
      (BuildClient restyNew { Timeout := 15 }).RetryCount = 0 :=
  have h := BuildClient_retry_floor restyNew { Timeout := 15 } (by decide) (by decide)
  ⟨h.1, h.2.1, h.2.2.2 (by decide)⟩

/-! ## Burp request decoder -/

/-- C5: `ParseBurpRequest` returns the empty string for every input that is not
valid standard base64, and for every input that decodes to bytes which do not
parse as an HTTP request; the result is a plain string in every case.  The
input `!!!`, which is outside the base64 alphabet, gives the empty string. -/
theorem ParseBurpRequest_failure (lib : NetLib) :
    (∀ raw, DecodeString raw = none → ParseBurpRequest lib raw = "") ∧
      (∀ raw b, DecodeString raw = some b → lib.readRequest b = none →
        ParseBurpRequest lib raw = "") ∧
      DecodeString "!!!" = none ∧
      ParseBurpRequest lib "!!!" = "" := by
  have h1 : ∀ raw, DecodeString raw = none → ParseBurpRequest lib raw = "" := by
    intro raw h
    unfold ParseBurpRequest
    simp [h]
  refine ⟨h1, ?_, by decide, h1 _ (by decide)⟩
  intro raw b hd hr
  unfold ParseBurpRequest
  simp [hd, hr]

/-- C6, as stated, fails: for a request with the header `Referer: /home`, whose
scheme is empty, the returned URL is `//example.com/x`; it has no scheme and is
not of the form scheme, `://`, host, path. -/
theorem ParseBurpRequest_schemeless :
    ParseBurpRequest sampleLib
        "R0VUIC94IEhUVFAvMS4xDQpIb3N0OiBleGFtcGxlLmNvbQ0KUmVmZXJlcjogL2hvbWUNCg0K" =
        "//example.com/x" ∧
      DecodeString "R0VUIC94IEhUVFAvMS4xDQpIb3N0OiBleGFtcGxlLmNvbQ0KUmVmZXJlcjogL2hvbWUNCg0K" =
        some (asciiBytes "GET /x HTTP/1.1\r\nHost: example.com\r\nReferer: /home\r\n\r\n") ∧
      ∀ scheme : String,
        ParseBurpRequest sampleLib
            "R0VUIC94IEhUVFAvMS4xDQpIb3N0OiBleGFtcGxlLmNvbQ0KUmVmZXJlcjogL2hvbWUNCg0K" ≠
          scheme ++ "://" ++ "example.com" ++ "/x" := by
  have h : ParseBurpRequest sampleLib
      "R0VUIC94IEhUVFAvMS4xDQpIb3N0OiBleGFtcGxlLmNvbQ0KUmVmZXJlcjogL2hvbWUNCg0K" =
      "//example.com/x" := by decide
  refine ⟨h, by decide, ?_⟩
  intro scheme he
  rw [h] at he
  have hl := congrArg String.length he
  simp only [String.length_append] at hl
  have e1 : "//example.com/x".length = 15 := by decide
  have e2 : "://".length = 3 := by decide
  have e3 : "example.com".length = 11 := by decide
  have e4 : "/x".length = 2 := by decide
  omega

/-- C6, amended: for an input that decodes and parses as a request in origin
form (no scheme, no host) whose escaped path starts with a slash, the scheme is
`https` when there is no Referer header and the scheme of the parsed Referer
otherwise; when that scheme is not empty, `ParseBurpRequest` returns the
scheme, `://`, the escaped Host field, the escaped path and the query. -/
theorem ParseBurpRequest_absolute (lib : NetLib) (raw : String) (b : List Nat)
    (req : HttpRequest)
    (hdec : DecodeString raw = some b) (hreq : lib.readRequest b = some req)
    (horigin : originForm req.URL)
    (hhost : req.Host ≠ "" ∨ req.URL.Path ≠ "")
    (hpath : (lib.escapedPath
      { req.URL with Host := req.Host, Scheme := inheritedScheme lib req.Referer }).data.head? =
        some '/')
    (hscheme : inheritedScheme lib req.Referer ≠ "") :
    ParseBurpRequest lib raw =
        inheritedScheme lib req.Referer ++ "://" ++
          (if req.Host ≠ "" then lib.escapeHost req.Host else "") ++
          lib.escapedPath
            { req.URL with Host := req.Host, Scheme := inheritedScheme lib req.Referer } ++
          queryPart req.URL ∧
      (req.Referer = "" → inheritedScheme lib req.Referer = "https") ∧
      (∀ u, req.Referer ≠ "" → lib.urlParse req.Referer = some u →
        inheritedScheme lib req.Referer = u.Scheme) := by
  refine ⟨?_, ?_, ?_⟩
  · rw [ParseBurpRequest_String lib raw b req hdec hreq horigin]
    obtain ⟨-, ho, hu, -, hom, hf⟩ := horigin
    exact URL_String_absolute lib _ hscheme ho hu hom hf hhost hpath
  · intro hr
    simp [inheritedScheme, hr]
  · intro u hr hp
    simp [inheritedScheme, hr, hp]

/-- C6, amended, at the base64 text of `GET /x HTTP/1.1`, `Host: example.com`:
the result is `https://example.com/x`. -/
theorem ParseBurpRequest_absolute_witness :
    ParseBurpRequest sampleLib "R0VUIC94IEhUVFAvMS4xDQpIb3N0OiBleGFtcGxlLmNvbQ0KDQo=" =
      "https://example.com/x" :=
  (ParseBurpRequest_absolute sampleLib "R0VUIC94IEhUVFAvMS4xDQpIb3N0OiBleGFtcGxlLmNvbQ0KDQo="
    (asciiBytes "GET /x HTTP/1.1\r\nHost: example.com\r\n\r\n")
    { Method := "GET", URL := { Path := "/x" }, Host := "example.com", RequestURI := "/x" }
    (by decide) (by decide) (by decide) (by decide) (by decide) (by decide)).1.trans (by decide)

end Goverview
